import Mathlib

/-!
Verification of the chesspy repository (two thin chess front-ends:
`chesspy.py`, a curses terminal app, and `chesspy_windows.py`, a pygame GUI)
against its natural-language specification.

All chess rule logic is delegated to the external `python-chess` library and
to external processes (a UCI engine, a TCP game server, an HTTP puzzle API).
We therefore embed the repository's own code faithfully over an abstract
interface `ChessLib` that stands for the external library: its `Board` and
`Move` types are opaque, and each library call the repository makes is a
field of the structure.  Fallible library calls (ones that can raise a
Python exception) return `Except String α`, the `String` being `str(e)`.
The repository's functions are then translated statement by statement, and
theorems quantify over every `ChessLib` (every possible behaviour of the
external dependencies) unless a specific guarantee of python-chess is
needed, in which case that guarantee is an explicit named hypothesis.

A small concrete instance `toyLib` (boards are lists of the moves played)
is used only to evaluate theorems with hypotheses at concrete inputs.
-/

/-- Chess piece types, as in python-chess (`chess.PAWN` .. `chess.KING`).
A piece is a pair of its type and its colour (`chess.WHITE = True`). -/
inductive PieceType where
  | pawn
  | knight
  | bishop
  | rook
  | queen
  | king
deriving DecidableEq

/-- Abstract interface to the external python-chess library (and the
engine / random-choice externals reached through it).  Each field models
one operation the repository calls.  Fallible operations return
`Except String` (the error string standing for the raised exception). -/
structure ChessLib where
  Board : Type
  Move : Type
  /-- `board.push(mv)` (returns the updated board; never raises here). -/
  push : Board → Move → Board
  /-- `mv in board.legal_moves`. -/
  legal : Board → Move → Bool
  /-- `list(board.legal_moves)`. -/
  legal_moves_list : Board → List Move
  /-- `board.parse_uci(s)`; raises on invalid or illegal input. -/
  parse_uci : Board → String → Except String Move
  /-- `board.parse_san(s)`; raises on invalid or illegal input. -/
  parse_san : Board → String → Except String Move
  /-- `board.push_uci(s)`: parse as UCI then push; raises without mutating
  on invalid or illegal input. -/
  push_uci : Board → String → Except String Board
  /-- `board.san(mv)` for a legal move of the position. -/
  san : Board → Move → String
  /-- `move.uci()`. -/
  uci : Move → String
  /-- `board.turn` (`True` = white). -/
  turn : Board → Bool
  /-- `board.piece_at(square)`, squares numbered `rank * 8 + file`. -/
  piece_at : Board → Nat → Option (PieceType × Bool)
  /-- `len(board.piece_map())`. -/
  piece_count : Board → Nat
  /-- `chess.syzygy.open_tablebase(path)` + `tablebase.probe_wdl(board)`,
  merged into one fallible read-only probe. -/
  probe_wdl : String → Board → Except String Int
  /-- `engine.play(board, Limit(depth=10)).move` in the curses app:
  the whole engine round trip, raising on any engine failure. -/
  engine_play : Board → Except String Move
  /-- `EngineWrapper.get_move` of the GUI: `none` when the engine is absent,
  errored, or returned a falsy move. -/
  get_move : Board → Option Move
  /-- `board.is_game_over()`. -/
  is_game_over : Board → Bool
  /-- `board.result()`. -/
  result : Board → String
  /-- `chess.Move(from_square, to_square)`. -/
  mk_move : Nat → Nat → Move
  /-- `chess.pgn.read_game(io)` followed by `game.board()` and
  `game.mainline_moves()`: the starting board and the mainline move list. -/
  read_game : String → Except String (Board × List Move)
  /-- `board.fen()`. -/
  fen : Board → String
  /-- `chess.Board(fen)`. -/
  board_of_fen : String → Board

/-! ## Python string primitives

The repository manipulates Python `str` values with `strip`, `split`,
`startswith` and indexing.  We model Python strings as Lean `String`s and
give the Python operations directly over the character list, so that every
definition reduces in the kernel. -/

/-- Python `s.strip()`: drop whitespace from both ends. -/
def pyStrip (s : String) : String :=
  ⟨((s.data.dropWhile Char.isWhitespace).reverse.dropWhile Char.isWhitespace).reverse⟩

/-- Python `s.rstrip()`: drop whitespace from the right end. -/
def pyRstrip (s : String) : String :=
  ⟨(s.data.reverse.dropWhile Char.isWhitespace).reverse⟩

/-- Python `s.split()` (no separator): whitespace-separated tokens, empties
discarded. -/
def pySplitWs (s : String) : List String :=
  ((s.data.splitOnP Char.isWhitespace).filter (fun t => !t.isEmpty)).map
    (fun l => (⟨l⟩ : String))

/-- Python `s.split(sep)` for a one-character separator: chunks between
occurrences, empties kept. -/
def pySplitChar (s : String) (sep : Char) : List String :=
  (s.data.splitOn sep).map (fun l => (⟨l⟩ : String))

/-- Python `s.startswith(pre)`. -/
def pyStartsWith (s pre : String) : Bool :=
  pre.data.isPrefixOf s.data

/-! ## chesspy.py — helper functions -/

/-- Python 3 `round` on the exact value: round half to even (banker's
rounding).  `generate_thermometer` applies `round` to the float
`(cp / cp_range) * center`; for the parameters of this program the float
evaluation agrees with the exact rational value (the only half-integer
values arise at `cp = ±150`, where the float computation is exact), so we
model it exactly over `ℚ`. -/
def roundHalfEven (q : ℚ) : ℤ :=
  if Int.fract q < 1 / 2 then ⌊q⌋
  else if 1 / 2 < Int.fract q then ⌊q⌋ + 1
  else if ⌊q⌋ % 2 = 0 then ⌊q⌋ else ⌊q⌋ + 1

/-- The `█` marker block of the thermometer bar. -/
def markChar : Char := '█'

/-- `generate_thermometer(cp, cp_range, length)` of chesspy.py: clamp `cp`
to `[-cp_range, cp_range]`, place a `█` at `length//2 + round(...)` within
a bar of `-` characters, and wrap it in brackets. -/
def generate_thermometer (cp cp_range : ℤ) (len : ℕ) : String :=
  let cpc := max (-cp_range) (min cp cp_range)
  let center : ℤ := ((len / 2 : ℕ) : ℤ)
  let offset := roundHalfEven ((cpc : ℚ) / ((cp_range : ℤ) : ℚ) * ((center : ℤ) : ℚ))
  let marker := center + offset
  let bar := String.join ((List.range len).map
    (fun i => if ((i : ℕ) : ℤ) = marker then String.singleton markChar else "-"))
  "[" ++ bar ++ "]"

/-- `UNICODE_PIECES` of chesspy.py: map from (piece type, colour) to the
unicode chess glyph. -/
def UNICODE_PIECES : List ((PieceType × Bool) × String) :=
  [((.pawn, true), "♙"), ((.knight, true), "♘"), ((.bishop, true), "♗"),
   ((.rook, true), "♖"), ((.queen, true), "♕"), ((.king, true), "♔"),
   ((.pawn, false), "♟"), ((.knight, false), "♞"), ((.bishop, false), "♝"),
   ((.rook, false), "♜"), ((.queen, false), "♛"), ((.king, false), "♚")]

/-- `piece_to_unicode` of chesspy.py: `UNICODE_PIECES.get(key, "?")`. -/
def piece_to_unicode (p : PieceType × Bool) : String :=
  match UNICODE_PIECES.lookup p with
  | some s => s
  | none => "?"

/-- `board_to_unicode_str` of chesspy.py: 8 lines, ranks 7 down to 0,
each square the piece glyph or `.`, separated by spaces, right-stripped. -/
def board_to_unicode_str (lib : ChessLib) (board : lib.Board) : String :=
  let lines := ((List.range 8).reverse).map (fun rank =>
    let row_str := String.join ((List.range 8).map (fun file =>
      match lib.piece_at board (rank * 8 + file) with
      | some piece => piece_to_unicode piece ++ " "
      | none => ". "))
    pyRstrip row_str)
  String.intercalate "\n" lines

/-- The text-preprocessing half of `parse_move` of chesspy.py: strip the
input; if it contains a `.` (a move number such as `1.`), keep only the
last whitespace-separated token. -/
def move_text (user_input : String) : String :=
  let s := pyStrip user_input
  if s.data.contains '.' then
    match (pySplitWs s).getLast? with
    | some t => t
    | none => s
  else s

/-- `parse_move` of chesspy.py: preprocess the text, try
`board.parse_uci` first and return its result on success, otherwise fall
back to `board.parse_san` (whose exception, if any, propagates). -/
def parse_move (lib : ChessLib) (user_input : String) (board : lib.Board) :
    Except String lib.Move :=
  let s := move_text user_input
  match lib.parse_uci board s with
  | .ok mv => .ok mv
  | .error _ => lib.parse_san board s

/-! ## chesspy.py — the ChessApp state and its operations -/

/-- The mutable state of `ChessApp` (chesspy.py).  `engine` records whether
`self.engine` is non-`None`; the curses screen handle is not state. -/
structure AppState (lib : ChessLib) where
  board : lib.Board
  engine : Bool
  tb_path : Option String
  human_color : Bool
  move_count : Int
  last_move_white : String
  last_move_black : String
  input_line : String
  best_eval_str : String
  analysis_variants : List (Int × String × String)
  status_msg : String

/-- Python truthiness of `self.tb_path`: `None` and the empty string are
falsy. -/
def tb_truthy : Option String → Bool
  | none => false
  | some p => !(p == "")

/-- `ChessApp.synergy_check`: when `self.tb_path` is truthy and the
position has at most 7 pieces, probe the Syzygy tablebase and record the
WDL value (or the Syzygy error) in `status_msg`; otherwise do nothing. -/
def synergy_check (lib : ChessLib) (st : AppState lib) : AppState lib :=
  match st.tb_path with
  | none => st
  | some p =>
    if p ≠ "" ∧ lib.piece_count st.board ≤ 7 then
      match lib.probe_wdl p st.board with
      | .ok wdl => { st with status_msg := "(Syzygy) WDL = " ++ toString wdl }
      | .error e => { st with status_msg := "Błąd Syzygy: " ++ e }
    else st

/-- `USE_SYZYGY_AFTER_MOVE` of chesspy.py. -/
def USE_SYZYGY_AFTER_MOVE : Bool := true

/-- `ChessApp.do_move`: record the SAN of `mv` in the old position, push
`mv`, update the last-move lines and the move counter from the new side to
move, then (configuration permitting) run the Syzygy check. -/
def do_move (lib : ChessLib) (st : AppState lib) (mv : lib.Move) : AppState lib :=
  let move_san := lib.san st.board mv
  let board := lib.push st.board mv
  let st :=
    if lib.turn board = true then
      { st with board := board, last_move_black := move_san,
                move_count := st.move_count + 1 }
    else
      { st with board := board, last_move_white := move_san }
  if USE_SYZYGY_AFTER_MOVE then synergy_check lib st else st

/-- `ChessApp.handle_player_move`: parse the input; on a parse exception
set `status_msg` to the error, on an illegal move set `status_msg` to
`"Nielegalny ruch."`, otherwise perform the move and clear `status_msg`. -/
def handle_player_move (lib : ChessLib) (st : AppState lib)
    (user_input : String) : AppState lib :=
  match parse_move lib user_input st.board with
  | .error e => { st with status_msg := "Błąd ruchu: " ++ e }
  | .ok mv =>
    if lib.legal st.board mv then
      let st := do_move lib st mv
      { st with status_msg := "" }
    else
      { st with status_msg := "Nielegalny ruch." }

/-- `ChessApp.handle_engine_move`: do nothing without an engine; otherwise
ask the engine to play, perform its move and report it, converting any
engine exception into a `status_msg`. -/
def handle_engine_move (lib : ChessLib) (st : AppState lib) : AppState lib :=
  if st.engine = false then st
  else
    match lib.engine_play st.board with
    | .error e => { st with status_msg := "Błąd silnika: " ++ e }
    | .ok mv =>
      let move_san := lib.san st.board mv
      let st := do_move lib st mv
      { st with status_msg := "Silnik (ruch): " ++ move_san }

/-- The board pane of `ChessApp.draw_screen`: the screen renders
`board_to_unicode_str(self.board)` at rows 2–9. -/
def screen_board_text (lib : ChessLib) (st : AppState lib) : String :=
  board_to_unicode_str lib st.board

/-- The two board-mutating operations the curses main loop performs. -/
inductive AppOp where
  | player (input : String)
  | engine

/-- Apply one board-mutating operation of the curses main loop. -/
def app_op (lib : ChessLib) (st : AppState lib) : AppOp → AppState lib
  | .player input => handle_player_move lib st input
  | .engine => handle_engine_move lib st

/-- Run a sequence of board-mutating operations of the curses main loop. -/
def run_ops (lib : ChessLib) (st : AppState lib) (ops : List AppOp) : AppState lib :=
  ops.foldl (app_op lib) st

/-! ## chesspy_windows.py — play_against_ai -/

/-- The state of the `play_against_ai` loop: the board, the global
`move_history`, and the currently selected square. -/
structure GuiState (lib : ChessLib) where
  board : lib.Board
  move_history : List lib.Move
  selected_square : Option Nat

/-- The second half of the `MOUSEBUTTONDOWN` handling of
`play_against_ai`, entered with a square already selected: build
`chess.Move(selected_square, square)` as `move`; if it is legal push it
and append it to `move_history`, otherwise only display an error; either
way clear the selection.  (The next iteration's `draw_board` then renders
the updated board.) -/
def click_move_step (lib : ChessLib) (g : GuiState lib) (move : lib.Move) :
    GuiState lib :=
  if lib.legal g.board move then
    { board := lib.push g.board move,
      move_history := g.move_history ++ [move],
      selected_square := none }
  else
    { g with selected_square := none }

/-- The engine branch of `play_against_ai` (black to move): take the
engine's move if it is truthy and legal, otherwise fall back to
`random.choice(list(board.legal_moves))`.  The random draw is modelled by
the oracle `r`; `none` models the `IndexError` crash of `random.choice`
on an empty list (unreachable in the loop, which checks
`board.is_game_over()` first). -/
def ai_engine_step (lib : ChessLib) (g : GuiState lib) (r : Nat) :
    Option (GuiState lib) :=
  let push_mv := fun (mv : lib.Move) =>
    { g with board := lib.push g.board mv,
             move_history := g.move_history ++ [mv] }
  let fallback :=
    let l := lib.legal_moves_list g.board
    match l.get? (r % l.length) with
    | some mv => some (push_mv mv)
    | none => none
  match lib.get_move g.board with
  | some mv => if lib.legal g.board mv then some (push_mv mv) else fallback
  | none => fallback

/-! ## chesspy_windows.py — online mode -/

/-- The state of the `launch_online_game` loop visible to the claims. -/
structure OnlineState (lib : ChessLib) where
  board : lib.Board
  selected_square : Option Nat
  is_white : Bool
  opponent : String
  username : String

/-- The `MOUSEBUTTONDOWN` handling of `launch_online_game` at a board
square `sq`: only on our own turn; first click selects one of our pieces,
second click builds `chess.Move(selected_square, square)`, pushes it if it
is legal and sends `MOVE|opponent|uci` to the server, and clears the
selection either way.  Returns the new state and the messages sent. -/
def online_click (lib : ChessLib) (st : OnlineState lib) (sq : Nat) :
    OnlineState lib × List String :=
  if (lib.turn st.board = true ∧ st.is_white = true) ∨
     (lib.turn st.board = false ∧ st.is_white = false) then
    match st.selected_square with
    | none =>
      match lib.piece_at st.board sq with
      | some piece =>
        if piece.2 = lib.turn st.board then
          ({ st with selected_square := some sq }, [])
        else (st, [])
      | none => (st, [])
    | some s0 =>
      let move := lib.mk_move s0 sq
      if lib.legal st.board move then
        ({ st with board := lib.push st.board move, selected_square := none },
         ["MOVE|" ++ st.opponent ++ "|" ++ lib.uci move])
      else
        ({ st with selected_square := none }, [])
  else (st, [])

/-- The game-over check at the top of the `launch_online_game` loop: when
the game is over, send `GAME_OVER|username|opponent|result`. -/
def online_game_over_check (lib : ChessLib) (st : OnlineState lib) : List String :=
  if lib.is_game_over st.board then
    ["GAME_OVER|" ++ st.username ++ "|" ++ st.opponent ++ "|" ++
      lib.result st.board]
  else []

/-- The messages sent by `login_screen` (chesspy_windows.py hard-codes the
credentials `Buldozer` / `123`). -/
def login_screen_messages : List String :=
  ["LOGIN|" ++ "Buldozer" ++ "|" ++ "123"]

/-- The message sent by `choose_opponent` when the online-match button is
clicked. -/
def choose_opponent_match_messages : List String :=
  ["START_MATCH"]

/-- The documented plaintext message forms of the client→server protocol
(spec §6): `LOGIN|user|pass`, `MOVE|opponent|uci`,
`GAME_OVER|user|opponent|result`, and the bare `START_MATCH`. -/
def DocumentedMsg (m : String) : Prop :=
  (∃ u p, m = "LOGIN|" ++ u ++ "|" ++ p) ∨
  (∃ opp mv, m = "MOVE|" ++ opp ++ "|" ++ mv) ∨
  (∃ u opp res, m = "GAME_OVER|" ++ u ++ "|" ++ opp ++ "|" ++ res) ∨
  m = "START_MATCH"

/-- Outcome of one iteration of the background `receive_thread` of
`launch_online_game`: either the loop continues with the (possibly
updated) shared board, or an exception was caught and the loop ends
(`stop`), the board keeping the given value. -/
inductive RecvOutcome (lib : ChessLib) where
  | cont (b : lib.Board)
  | stop (b : lib.Board)

/-- One iteration of `receive_thread`: `recv` yields `r` (`error` when the
socket call raised).  If the decoded data starts with `OPPONENT_MOVE`, the
text at index 1 of `data.split("|")` is pushed with `board.push_uci`; a
missing separator (IndexError) or a `push_uci` exception is caught by the
`except` clause, which breaks the loop. -/
def receive_step (lib : ChessLib) (b : lib.Board) (r : Except String String) :
    RecvOutcome lib :=
  match r with
  | .error _ => .stop b
  | .ok data =>
    if pyStartsWith data "OPPONENT_MOVE" then
      match (pySplitChar data '|').get? 1 with
      | none => .stop b
      | some move =>
        match lib.push_uci b move with
        | .ok b' => .cont b'
        | .error _ => .stop b
    else .cont b

/-! ## chesspy_windows.py — Lichess puzzles -/

/-- The parts of the Lichess puzzle JSON document that the repository
reads: `puzzle['game']['pgn']` and `puzzle['puzzle']['solution']`. -/
structure Puzzle where
  pgn : String
  solution : List String
deriving DecidableEq

/-- The parts of a `requests` response that `get_lichess_puzzle` reads:
`status_code`, and `json()` (which can itself raise). -/
structure HttpResponse where
  status_code : Nat
  json : Except String Puzzle

/-- `get_lichess_puzzle`: perform the GET (`r` is its outcome; `error`
when `requests.get` raised), return the parsed JSON on status 200 and
`None` on any other status; any exception, including one raised by
`json()`, is caught and yields `None`. -/
def get_lichess_puzzle (r : Except String HttpResponse) : Option Puzzle :=
  match r with
  | .error _ => none
  | .ok resp =>
    if resp.status_code = 200 then
      match resp.json with
      | .ok p => some p
      | .error _ => none
    else none

/-- `pgn_to_fen`: read the game from the PGN, replay the mainline from the
game's initial board, and return the final position's FEN.  An exception
of `chess.pgn` propagates (the function has no handler). -/
def pgn_to_fen (lib : ChessLib) (pgn : String) : Except String String :=
  match lib.read_game pgn with
  | .error e => .error e
  | .ok gb => .ok (lib.fen (gb.2.foldl lib.push gb.1))

/-- How far `draw_puzzle` gets before its interactive loop: with no puzzle
it only prints `"Brak zadania do wyświetlenia"` and returns; with a puzzle
it builds the board from the PGN's final FEN and enters the loop with the
solution move list (`crash` models an uncaught `pgn_to_fen` exception). -/
inductive PuzzleInit (lib : ChessLib) where
  | no_puzzle (printed : String)
  | start (b : lib.Board) (solution : List String)
  | crash (e : String)

/-- The entry of `draw_puzzle` (chesspy_windows.py): `None` prints a
message and returns, touching no board and no display state. -/
def draw_puzzle (lib : ChessLib) (p : Option Puzzle) : PuzzleInit lib :=
  match p with
  | none => .no_puzzle "Brak zadania do wyświetlenia"
  | some pz =>
    match pgn_to_fen lib pz.pgn with
    | .ok fenStr => .start (lib.board_of_fen fenStr) pz.solution
    | .error e => .crash e

/-! ## Legal-move reachability -/

/-- `via_legal lib b b'`: `b'` arises from `b` by pushing only moves that
are legal in the position they are pushed on — the invariant of spec §3
("the board is always a legal chess position"). -/
inductive via_legal (lib : ChessLib) : lib.Board → lib.Board → Prop where
  | refl (b : lib.Board) : via_legal lib b b
  | step {b b' : lib.Board} {mv : lib.Move} :
      via_legal lib b b' → lib.legal b' mv = true →
      via_legal lib b (lib.push b' mv)

/-! ## A concrete toy instance, used to evaluate theorems with hypotheses
at concrete inputs.  Boards are the list of moves played so far; moves are
strings. -/

/-- A concrete `ChessLib` instance for witnesses. -/
def toyLib : ChessLib where
  Board := List String
  Move := String
  push := fun b m => b ++ [m]
  legal := fun _ m => !(m == "")
  legal_moves_list := fun _ => ["e2e4"]
  parse_uci := fun _ s => if s == "e2e4" then .ok "e2e4" else .error "invalid uci"
  parse_san := fun _ s => if s == "Nf3" then .ok "g1f3" else .error "invalid san"
  push_uci := fun b s => if s == "e2e4" then .ok (b ++ ["e2e4"]) else .error "invalid uci"
  san := fun _ m => m
  uci := fun m => m
  turn := fun b => b.length % 2 == 0
  piece_at := fun _ _ => none
  piece_count := fun b => b.length
  probe_wdl := fun _ _ => .ok 0
  engine_play := fun _ => .ok "e2e4"
  get_move := fun _ => some "e2e4"
  is_game_over := fun _ => false
  result := fun _ => "*"
  mk_move := fun a b => toString a ++ "," ++ toString b
  read_game := fun _ => .ok ([], [])
  fen := fun _ => "startfen"
  board_of_fen := fun _ => []

/-- The empty toy board. -/
def toyBoard0 : toyLib.Board := []

/-- A toy `ChessApp` state mirroring `ChessApp.__init__`, except that a
tablebase path is configured. -/
def toyApp : AppState toyLib where
  board := toyBoard0
  engine := true
  tb_path := some "tb"
  human_color := true
  move_count := 1
  last_move_white := "-"
  last_move_black := "-"
  input_line := ""
  best_eval_str := "---"
  analysis_variants := []
  status_msg := ""

/-- A toy `play_against_ai` state. -/
def toyGui : GuiState toyLib where
  board := toyBoard0
  move_history := []
  selected_square := none

/-- A toy `launch_online_game` state. -/
def toyOnline : OnlineState toyLib where
  board := toyBoard0
  selected_square := none
  is_white := true
  opponent := "Przeciwnik1"
  username := "Buldozer"

/-! ## Helper lemmas -/

theorem via_legal_trans {lib : ChessLib} {a b c : lib.Board}
    (h1 : via_legal lib a b) (h2 : via_legal lib b c) : via_legal lib a c := by
  induction h2 with
  | refl => exact h1
  | step _ hl ih => exact .step ih hl

theorem synergy_check_board (lib : ChessLib) (st : AppState lib) :
    (synergy_check lib st).board = st.board := by
  unfold synergy_check
  split
  · rfl
  · split
    · split <;> rfl
    · rfl

theorem do_move_board (lib : ChessLib) (st : AppState lib) (mv : lib.Move) :
    (do_move lib st mv).board = lib.push st.board mv := by
  simp only [do_move, USE_SYZYGY_AFTER_MOVE]
  rw [if_pos trivial, synergy_check_board]
  split <;> rfl

/-! ## Claim C1 -/

/-- C1: every move accepted as legal is reflected in the board that is
subsequently displayed.  In the curses app, `do_move` on state `st` and
move `mv` leaves the board exactly `st.board.push(mv)` (and the board pane
`draw_screen` renders is the rendering of that board); in the GUI's
`play_against_ai`, a clicked move that is in `board.legal_moves` is pushed
onto the board and appended to `move_history` (the state the next
`draw_board` call reads). -/
theorem moves_reflected (lib : ChessLib) (st : AppState lib) (mv : lib.Move)
    (g : GuiState lib) (m2 : lib.Move) :
    (do_move lib st mv).board = lib.push st.board mv ∧
    screen_board_text lib (do_move lib st mv) =
      board_to_unicode_str lib (lib.push st.board mv) ∧
    (lib.legal g.board m2 = true →
      click_move_step lib g m2 =
        { board := lib.push g.board m2,
          move_history := g.move_history ++ ([m2] : List lib.Move),
          selected_square := none }) := by
  refine ⟨do_move_board lib st mv, ?_, ?_⟩
  · unfold screen_board_text
    rw [do_move_board]
  · intro h
    unfold click_move_step
    rw [if_pos h]

/-- Witness for C1: evaluating the GUI branch of `moves_reflected` on the
toy instance at the concrete legal move `"e2e4"`. -/
theorem moves_reflected_witness :
    toyLib.legal toyGui.board "e2e4" = true ∧
    click_move_step toyLib toyGui "e2e4" =
      { board := toyLib.push toyGui.board "e2e4",
        move_history := toyGui.move_history ++ (["e2e4"] : List toyLib.Move),
        selected_square := none } :=
  ⟨rfl, (moves_reflected toyLib toyApp "a" toyGui "e2e4").2.2 rfl⟩

/-! ## Claim C2 -/

/-- C2: whenever `handle_player_move` fails — the parse raised, or the
parsed move is not in `board.legal_moves` — the resulting state is the old
state with only `status_msg` replaced by an error string (so the board,
`move_count`, `last_move_white` and `last_move_black` are unchanged); in
the model `handle_player_move` is a total function, matching the source's
catch-all `except`, so no exception escapes and execution continues. -/
theorem handle_player_move_failure (lib : ChessLib) (st : AppState lib)
    (user_input : String) :
    (∀ e, parse_move lib user_input st.board = .error e →
      handle_player_move lib st user_input =
        { st with status_msg := "Błąd ruchu: " ++ e }) ∧
    (∀ mv, parse_move lib user_input st.board = .ok mv →
      lib.legal st.board mv = false →
      handle_player_move lib st user_input =
        { st with status_msg := "Nielegalny ruch." }) := by
  constructor
  · intro e he
    unfold handle_player_move
    rw [he]
  · intro mv hmv hl
    unfold handle_player_move
    rw [hmv]
    simp only [hl, Bool.false_eq_true, if_false]

/-- Witness for C2: on the toy instance the input `"zz"` fails both
parsers, and `handle_player_move` only replaces `status_msg`. -/
theorem handle_player_move_failure_witness :
    parse_move toyLib "zz" toyApp.board = .error "invalid san" ∧
    handle_player_move toyLib toyApp "zz" =
      { toyApp with status_msg := "Błąd ruchu: " ++ "invalid san" } :=
  ⟨rfl, (handle_player_move_failure toyLib toyApp "zz").1 "invalid san" rfl⟩

/-! ## Claim C3 -/

theorem via_legal_player (lib : ChessLib) (st : AppState lib) (input : String) :
    via_legal lib st.board (handle_player_move lib st input).board := by
  simp only [handle_player_move]
  split
  · exact .refl _
  · next mv heq =>
    split
    · next hl =>
      show via_legal lib st.board (do_move lib st mv).board
      rw [do_move_board]
      exact .step (.refl _) hl
    · exact .refl _

theorem via_legal_engine (lib : ChessLib)
    (hE : ∀ b mv, lib.engine_play b = Except.ok mv → lib.legal b mv = true)
    (st : AppState lib) :
    via_legal lib st.board (handle_engine_move lib st).board := by
  simp only [handle_engine_move]
  split
  · exact .refl _
  · split
    · exact .refl _
    · next mv heq =>
      show via_legal lib st.board (do_move lib st mv).board
      rw [do_move_board]
      exact .step (.refl _) (hE _ _ heq)

theorem via_legal_run_ops (lib : ChessLib)
    (hE : ∀ b mv, lib.engine_play b = Except.ok mv → lib.legal b mv = true)
    (st : AppState lib) (ops : List AppOp) :
    via_legal lib st.board (run_ops lib st ops).board := by
  induction ops generalizing st with
  | nil => exact .refl _
  | cons op rest ih =>
    have h1 : via_legal lib st.board (app_op lib st op).board := by
      cases op with
      | player input => exact via_legal_player lib st input
      | engine => exact via_legal_engine lib hE st
    exact via_legal_trans h1 (ih (app_op lib st op))

theorem via_legal_click (lib : ChessLib) (g : GuiState lib) (mv : lib.Move) :
    via_legal lib g.board (click_move_step lib g mv).board := by
  unfold click_move_step
  split
  · next hl => exact .step (.refl _) hl
  · exact .refl _

theorem via_legal_ai (lib : ChessLib)
    (hL : ∀ b mv, mv ∈ lib.legal_moves_list b → lib.legal b mv = true)
    (g : GuiState lib) (r : Nat) (g' : GuiState lib)
    (h : ai_engine_step lib g r = some g') :
    via_legal lib g.board g'.board := by
  simp only [ai_engine_step] at h
  split at h
  · next mv hm =>
    split at h
    · next hl =>
      injection h with h
      subst h
      exact .step (.refl _) hl
    · split at h
      · next mv2 hg =>
        injection h with h
        subst h
        exact .step (.refl _) (hL _ _ (List.get?_mem hg))
      · exact Option.noConfusion h
  · split at h
    · next mv2 hg =>
      injection h with h
      subst h
      exact .step (.refl _) (hL _ _ (List.get?_mem hg))
    · exact Option.noConfusion h

/-- C3: every board-mutating operation of this code pushes only moves that
are legal in the board's current position, for every reachable state of
each game loop — given the two guarantees the external library provides:
python-chess validates the engine's `bestmove` against the position
(`hE`), and `board.legal_moves` generates only legal moves (`hL`).
`via_legal` says the final board arises from the initial one by legal
pushes only; `run_ops` covers every state the curses loop can reach by its
two board-mutating operations. -/
theorem board_always_legal (lib : ChessLib)
    (hE : ∀ b mv, lib.engine_play b = Except.ok mv → lib.legal b mv = true)
    (hL : ∀ b mv, mv ∈ lib.legal_moves_list b → lib.legal b mv = true)
    (st : AppState lib) (input : String) (ops : List AppOp)
    (g : GuiState lib) (mv : lib.Move) (r : Nat) (g' : GuiState lib) :
    via_legal lib st.board (handle_player_move lib st input).board ∧
    via_legal lib st.board (handle_engine_move lib st).board ∧
    via_legal lib st.board (run_ops lib st ops).board ∧
    via_legal lib g.board (click_move_step lib g mv).board ∧
    (ai_engine_step lib g r = some g' → via_legal lib g.board g'.board) :=
  ⟨via_legal_player lib st input, via_legal_engine lib hE st,
   via_legal_run_ops lib hE st ops, via_legal_click lib g mv,
   via_legal_ai lib hL g r g'⟩

/-- Witness for C3: the toy library satisfies both library guarantees, and
the engine-move conclusion evaluates at the concrete initial state. -/
theorem board_always_legal_witness :
    via_legal toyLib toyApp.board (handle_engine_move toyLib toyApp).board :=
  (board_always_legal toyLib
    (by intro b mv h
        injection h with h
        subst h
        rfl)
    (by intro b mv h
        have h2 := List.mem_singleton.mp h
        subst h2
        rfl)
    toyApp "" [] toyGui "e2e4" 0 toyGui).2.1

/-! ## Claim C4 -/

/-- C4: `synergy_check` probes the Syzygy tablebase — and updates
`status_msg` with the WDL result or a Syzygy error string — if and only if
`tb_path` is set (Python-truthy: neither `None` nor empty) and the
position has at most 7 pieces; otherwise it leaves the whole state
unchanged.  (`do_move` then runs it after every move, since
`USE_SYZYGY_AFTER_MOVE` is `True`.) -/
theorem synergy_check_spec (lib : ChessLib) (st : AppState lib) :
    ((tb_truthy st.tb_path && decide (lib.piece_count st.board ≤ 7)) = false →
      synergy_check lib st = st) ∧
    (∀ p, st.tb_path = some p → p ≠ "" → lib.piece_count st.board ≤ 7 →
      (∀ w, lib.probe_wdl p st.board = .ok w →
        synergy_check lib st =
          { st with status_msg := "(Syzygy) WDL = " ++ toString w }) ∧
      (∀ e, lib.probe_wdl p st.board = .error e →
        synergy_check lib st =
          { st with status_msg := "Błąd Syzygy: " ++ e })) := by
  constructor
  · intro hfalse
    unfold synergy_check
    split
    · rfl
    · next p hp =>
      rw [hp] at hfalse
      have hnc : ¬(p ≠ "" ∧ lib.piece_count st.board ≤ 7) := by
        intro hcond
        have h1 : (p == "") = false := beq_eq_false_iff_ne.mpr hcond.1
        rw [tb_truthy, h1, decide_eq_true hcond.2] at hfalse
        simp at hfalse
      rw [if_neg hnc]
  · intro p hp hne hle
    constructor
    · intro w hw
      simp only [synergy_check, hp, if_pos (And.intro hne hle), hw]
    · intro e he
      simp only [synergy_check, hp, if_pos (And.intro hne hle), he]

/-- Witness for C4: on the toy state (tablebase path `"tb"`, 0 pieces,
probe returning WDL 0) `synergy_check` sets exactly the Syzygy status. -/
theorem synergy_check_spec_witness :
    toyApp.tb_path = some "tb" ∧
    synergy_check toyLib toyApp =
      { toyApp with status_msg := "(Syzygy) WDL = " ++ toString (0 : Int) } :=
  ⟨rfl, ((synergy_check_spec toyLib toyApp).2 "tb" rfl (by decide) (by decide)).1
    0 rfl⟩

/-! ## Claim C5 -/

/-- C5 as stated is false: the claim says the shared board is mutated
**iff** the received data starts with `OPPONENT_MOVE`.  The concrete
datagram `"OPPONENT_MOVE"` (no `|` separator) starts with the prefix, yet
`data.split("|")[1]` raises `IndexError`, which the `except` clause turns
into a `break`: the board is not mutated and the loop ends. -/
theorem receive_iff_counterexample :
    pyStartsWith "OPPONENT_MOVE" "OPPONENT_MOVE" = true ∧
    receive_step toyLib toyBoard0 (Except.ok "OPPONENT_MOVE") =
      RecvOutcome.stop toyBoard0 :=
  ⟨rfl, rfl⟩

/-- C5 (amended): the receive loop branches only on the message prefix,
and the board is mutated only for data starting with `OPPONENT_MOVE`:
data without that prefix leaves the board unchanged and the loop
continues; with the prefix, the text between the first and second `|` is
pushed as a UCI move when that push succeeds, while a missing separator or
a `push_uci` exception leaves the board unchanged and ends the loop; a
socket exception also ends the loop. -/
theorem receive_step_spec (lib : ChessLib) (b : lib.Board)
    (r : Except String String) :
    (∀ e, r = .error e → receive_step lib b r = .stop b) ∧
    (∀ data, r = .ok data → pyStartsWith data "OPPONENT_MOVE" = false →
      receive_step lib b r = .cont b) ∧
    (∀ data, r = .ok data → pyStartsWith data "OPPONENT_MOVE" = true →
      ((pySplitChar data '|').get? 1 = none → receive_step lib b r = .stop b) ∧
      (∀ mv, (pySplitChar data '|').get? 1 = some mv →
        (∀ b', lib.push_uci b mv = .ok b' → receive_step lib b r = .cont b') ∧
        (∀ e, lib.push_uci b mv = .error e → receive_step lib b r = .stop b))) := by
  refine ⟨?_, ?_, ?_⟩
  · intro e he
    subst he
    rfl
  · intro data hd hs
    subst hd
    simp only [receive_step, hs, Bool.false_eq_true, if_false]
  · intro data hd hs
    subst hd
    refine ⟨?_, ?_⟩
    · intro hn
      simp only [receive_step, hs, if_true, hn]
    · intro mv hm
      refine ⟨?_, ?_⟩
      · intro b' hb
        simp only [receive_step, hs, if_true, hm, hb]
      · intro e he
        simp only [receive_step, hs, if_true, hm, he]

/-- Witness for C5 (amended): a datagram without the prefix leaves the toy
board unchanged and the loop running. -/
theorem receive_step_spec_witness :
    receive_step toyLib toyBoard0 (Except.ok "HELLO") =
      RecvOutcome.cont toyBoard0 :=
  (receive_step_spec toyLib toyBoard0 (Except.ok "HELLO")).2.1 "HELLO" rfl rfl

/-! ## Claim C6 -/

/-- C6: every message the GUI client sends to the game server
(`send_to_server` is called from exactly four places: `login_screen`,
the move branch and the game-over branch of `launch_online_game`, and the
match button of `choose_opponent`) has one of the documented plaintext
forms `LOGIN|user|pass`, `MOVE|opponent|uci`,
`GAME_OVER|user|opponent|result`, `START_MATCH`. -/
theorem client_messages_documented (lib : ChessLib) (st : OnlineState lib)
    (sq : Nat) :
    (∀ m ∈ login_screen_messages, DocumentedMsg m) ∧
    (∀ m ∈ (online_click lib st sq).2, DocumentedMsg m) ∧
    (∀ m ∈ online_game_over_check lib st, DocumentedMsg m) ∧
    (∀ m ∈ choose_opponent_match_messages, DocumentedMsg m) := by
  refine ⟨?_, ?_, ?_, ?_⟩
  · intro m hm
    rw [login_screen_messages, List.mem_singleton] at hm
    subst hm
    exact Or.inl ⟨"Buldozer", "123", rfl⟩
  · intro m hm
    simp only [online_click] at hm
    split at hm
    · split at hm
      · split at hm
        · split at hm
          · exact absurd hm (List.not_mem_nil m)
          · exact absurd hm (List.not_mem_nil m)
        · exact absurd hm (List.not_mem_nil m)
      · split at hm
        · rw [List.mem_singleton] at hm
          subst hm
          exact Or.inr (Or.inl ⟨st.opponent, _, rfl⟩)
        · exact absurd hm (List.not_mem_nil m)
    · exact absurd hm (List.not_mem_nil m)
  · intro m hm
    unfold online_game_over_check at hm
    split at hm
    · rw [List.mem_singleton] at hm
      subst hm
      exact Or.inr (Or.inr (Or.inl ⟨st.username, st.opponent,
        lib.result st.board, rfl⟩))
    · exact absurd hm (List.not_mem_nil m)
  · intro m hm
    rw [choose_opponent_match_messages, List.mem_singleton] at hm
    subst hm
    exact Or.inr (Or.inr (Or.inr rfl))

/-- Witness for C6: the concrete login message is of a documented form. -/
theorem client_messages_documented_witness :
    DocumentedMsg ("LOGIN|" ++ "Buldozer" ++ "|" ++ "123") :=
  (client_messages_documented toyLib toyOnline 0).1 _ (List.mem_singleton.mpr rfl)

/-! ## Claim C7 -/

/-- A concrete puzzle document for witnesses. -/
def toyPuzzle : Puzzle where
  pgn := "1. e4"
  solution := ["e7e5"]

/-- C7: `get_lichess_puzzle` returns the parsed JSON document exactly when
the GET returned status 200 (and parsing raised nothing); any other status
and any exception — of `requests.get` or of `json()` — yields `None`; and
`draw_puzzle` applied to `None` only prints a message and returns, never
reaching a board or the display. -/
theorem get_lichess_puzzle_spec (r : Except String HttpResponse) :
    (∀ resp p, r = .ok resp → resp.status_code = 200 → resp.json = .ok p →
      get_lichess_puzzle r = some p) ∧
    (∀ p, get_lichess_puzzle r = some p →
      ∃ resp, r = .ok resp ∧ resp.status_code = 200 ∧ resp.json = .ok p) ∧
    (∀ resp, r = .ok resp → resp.status_code ≠ 200 →
      get_lichess_puzzle r = none) ∧
    (∀ resp e, r = .ok resp → resp.json = .error e →
      get_lichess_puzzle r = none) ∧
    (∀ e, r = .error e → get_lichess_puzzle r = none) ∧
    (∀ lib : ChessLib, draw_puzzle lib none =
      .no_puzzle "Brak zadania do wyświetlenia") := by
  refine ⟨?_, ?_, ?_, ?_, ?_, ?_⟩
  · intro resp p hr h200 hj
    subst hr
    simp only [get_lichess_puzzle, h200, if_true, hj]
  · intro p hp
    unfold get_lichess_puzzle at hp
    split at hp
    · exact Option.noConfusion hp
    · next resp =>
      split at hp
      · next h200 =>
        split at hp
        · next q hq =>
          injection hp with hp
          subst hp
          exact ⟨resp, rfl, h200, hq⟩
        · exact Option.noConfusion hp
      · exact Option.noConfusion hp
  · intro resp hr h200
    subst hr
    simp only [get_lichess_puzzle, h200, if_false]
  · intro resp e hr hj
    subst hr
    by_cases h200 : resp.status_code = 200
    · simp only [get_lichess_puzzle, h200, if_true, hj]
    · simp only [get_lichess_puzzle, h200, if_false]
  · intro e hr
    subst hr
    rfl
  · intro lib
    rfl

/-- Witness for C7: a 200 response with a parseable body is returned. -/
theorem get_lichess_puzzle_spec_witness :
    get_lichess_puzzle (Except.ok ⟨200, Except.ok toyPuzzle⟩) = some toyPuzzle :=
  (get_lichess_puzzle_spec (Except.ok ⟨200, Except.ok toyPuzzle⟩)).1
    ⟨200, Except.ok toyPuzzle⟩ toyPuzzle rfl rfl rfl

/-! ## Claim C9 -/

theorem roundHalfEven_floor_le (q : ℚ) : ⌊q⌋ ≤ roundHalfEven q := by
  unfold roundHalfEven
  split
  · exact le_refl _
  · split
    · omega
    · split <;> omega

theorem roundHalfEven_le {q : ℚ} {n : ℤ} (h : q ≤ (n : ℚ)) :
    roundHalfEven q ≤ n := by
  have hfl : ⌊q⌋ ≤ n := by
    have h2 := Int.floor_mono h
    rwa [Int.floor_intCast] at h2
  unfold roundHalfEven
  split
  · exact hfl
  · next h1 =>
    have hfr : (1 : ℚ) / 2 ≤ Int.fract q := not_lt.mp h1
    have h3 : Int.fract q = q - ⌊q⌋ := (Int.self_sub_floor q).symm
    rw [h3] at hfr
    have hlt : ⌊q⌋ < n := by
      have h4 : ((⌊q⌋ : ℤ) : ℚ) < ((n : ℤ) : ℚ) := by linarith
      exact_mod_cast h4
    split
    · omega
    · split <;> omega

theorem roundHalfEven_ge {q : ℚ} {n : ℤ} (h : (n : ℚ) ≤ q) :
    n ≤ roundHalfEven q :=
  le_trans (Int.le_floor.mpr h) (roundHalfEven_floor_le q)

/-- The thermometer string as a function of the final marker position. -/
def thermOf (m : ℤ) (len : ℕ) : String :=
  "[" ++ String.join ((List.range len).map
    (fun i => if ((i : ℕ) : ℤ) = m then String.singleton markChar else "-")) ++ "]"

theorem generate_thermometer_eq (cp : ℤ) :
    generate_thermometer cp 300 15 =
      thermOf (7 + roundHalfEven
        (((max (-300) (min cp 300) : ℤ) : ℚ) / 300 * 7)) 15 := by
  unfold generate_thermometer thermOf
  norm_num

theorem marker_bounds (cp : ℤ) :
    0 ≤ 7 + roundHalfEven (((max (-300) (min cp 300) : ℤ) : ℚ) / 300 * 7) ∧
    7 + roundHalfEven (((max (-300) (min cp 300) : ℤ) : ℚ) / 300 * 7) ≤ 14 := by
  set c : ℤ := max (-300) (min cp 300) with hc
  have hlo : (-300 : ℤ) ≤ c := le_max_left _ _
  have hhi : c ≤ 300 := max_le (by norm_num) (min_le_right _ _)
  have hloq : (-300 : ℚ) ≤ (c : ℚ) := by exact_mod_cast hlo
  have hhiq : (c : ℚ) ≤ 300 := by exact_mod_cast hhi
  have hq7 : ((c : ℤ) : ℚ) / 300 * 7 ≤ ((7 : ℤ) : ℚ) := by
    rw [div_mul_eq_mul_div, div_le_iff₀ (by norm_num : (0 : ℚ) < 300)]
    push_cast
    linarith
  have hqm7 : (((-7 : ℤ) : ℤ) : ℚ) ≤ ((c : ℤ) : ℚ) / 300 * 7 := by
    rw [div_mul_eq_mul_div, le_div_iff₀ (by norm_num : (0 : ℚ) < 300)]
    push_cast
    linarith
  constructor
  · have hg := roundHalfEven_ge hqm7
    omega
  · have hl := roundHalfEven_le hq7
    omega

theorem thermOf_prop (m : ℤ) (h0 : 0 ≤ m) (h1 : m ≤ 14) :
    (thermOf m 15).length = 17 ∧
    (thermOf m 15).data.head? = some '[' ∧
    (thermOf m 15).data.getLast? = some ']' ∧
    (thermOf m 15).data.count markChar = 1 ∧
    (thermOf m 15).data.indexOf markChar = m.toNat + 1 := by
  interval_cases m <;> decide

/-- C9: for every integer `cp` and the default parameters
(`cp_range = 300`, `length = 15`), `generate_thermometer` (a total
function) returns a string of exactly 17 characters that starts with `[`,
ends with `]` and contains exactly one `█`, whose index in the whole
string is `1 + (length//2 + round(clamp(cp,-300,300)/300 * (length//2)))`
— i.e. its index **within the bar** is the claimed marker formula, which
always lies inside the bar (`0 ≤ marker ≤ 14`). -/
theorem generate_thermometer_spec (cp : ℤ) :
    (generate_thermometer cp 300 15).length = 17 ∧
    (generate_thermometer cp 300 15).data.head? = some '[' ∧
    (generate_thermometer cp 300 15).data.getLast? = some ']' ∧
    (generate_thermometer cp 300 15).data.count markChar = 1 ∧
    0 ≤ 7 + roundHalfEven (((max (-300) (min cp 300) : ℤ) : ℚ) / 300 * 7) ∧
    7 + roundHalfEven (((max (-300) (min cp 300) : ℤ) : ℚ) / 300 * 7) ≤ 14 ∧
    (generate_thermometer cp 300 15).data.indexOf markChar =
      (7 + roundHalfEven
        (((max (-300) (min cp 300) : ℤ) : ℚ) / 300 * 7)).toNat + 1 := by
  obtain ⟨hb0, hb1⟩ := marker_bounds cp
  obtain ⟨p1, p2, p3, p4, p5⟩ := thermOf_prop _ hb0 hb1
  rw [generate_thermometer_eq cp]
  exact ⟨p1, p2, p3, p4, hb0, hb1, p5⟩

/-! ## Claim C10 -/

/-- C10: `parse_move` first reduces the input to its last
whitespace-separated token whenever the stripped string contains a `.`
(conjuncts 3 and 4 characterise `move_text`), hands that same text to both
parsers, returns the UCI parse on success, and attempts SAN only when UCI
parsing raises — so an input valid in both notations is interpreted as
UCI. -/
theorem parse_move_spec (lib : ChessLib) (user_input : String)
    (b : lib.Board) :
    (∀ mv, lib.parse_uci b (move_text user_input) = .ok mv →
      parse_move lib user_input b = .ok mv) ∧
    (∀ e, lib.parse_uci b (move_text user_input) = .error e →
      parse_move lib user_input b = lib.parse_san b (move_text user_input)) ∧
    ((pyStrip user_input).data.contains '.' = false →
      move_text user_input = pyStrip user_input) ∧
    (∀ t, (pyStrip user_input).data.contains '.' = true →
      (pySplitWs (pyStrip user_input)).getLast? = some t →
      move_text user_input = t) := by
  refine ⟨?_, ?_, ?_, ?_⟩
  · intro mv h
    simp only [parse_move, h]
  · intro e h
    simp only [parse_move, h]
  · intro h
    simp only [move_text, h, Bool.false_eq_true, if_false]
  · intro t hdot hlast
    simp only [move_text, hdot, if_true, hlast]

/-- Witness for C10: the input `"1. e2e4"` is reduced to the token
`"e2e4"`, which parses as UCI on the toy instance, and `parse_move`
returns that parse. -/
theorem parse_move_spec_witness :
    toyLib.parse_uci toyBoard0 (move_text "1. e2e4") = .ok "e2e4" ∧
    parse_move toyLib "1. e2e4" toyBoard0 = .ok "e2e4" :=
  ⟨rfl, (parse_move_spec toyLib "1. e2e4" toyBoard0).1 "e2e4" rfl⟩
